import Mathlib

/-
  Verification development for the flight-manager relay server.

  The authoritative broker source is the enhanced relay server staged in
  src/server/START-RELAY.bat (room records carrying a reconnection token
  and an optional cleanup-timer handle, a token-to-code index, a
  register_pc handler with a token-reclamation branch, and a primary-close
  handler that keeps the room and schedules a 3600000 ms cleanup). The
  older server in src/unnamed/part_001 shares character-identical
  join_room, relay and catch-block code.

  The broker is embedded shallowly: the mutable `rooms` and
  `reconnectionTokens` Maps become association lists inside an explicit
  `ServerState`, each socket is a natural-number identifier, the
  per-connection closure variables `currentRoom` / `deviceType` become a
  `ConnState`, and every side effect (`ws.send`, `socket.close`) is
  recorded in an explicit effect list. The random draws of
  generateRoomCode and the generated reconnection token are supplied as
  explicit parameters. Inbound frames are parsed JSON objects (`Option`
  models a JSON.parse failure reaching the catch block); outbound frames
  are JSON objects as field lists, mirroring the exact objects the server
  stringifies. The setTimeout callback scheduled on a primary close is
  embedded as the separate transition `fireCleanup`, and the stored timer
  handle as the Boolean `cleanupTimeout` field.
-/

set_option maxHeartbeats 1000000

namespace FlightRelay

/-- JSON-like wire values; relayed payloads are treated opaquely. -/
inductive JVal where
  | str : String → JVal
  | boolean : Bool → JVal
  | num : Int → JVal
deriving DecidableEq

/-- Field lookup on a parsed JSON object (JavaScript `data.field`). -/
def lookupField (fs : List (String × JVal)) (k : String) : Option JVal :=
  match fs with
  | [] => none
  | (k2, v) :: rest => if k2 = k then some v else lookupField rest k

/-- Device kind recorded in the connection closure: 'pc' or 'mobile'. -/
inductive Dev where
  | pc
  | mobile
deriving DecidableEq

/-- A room record:
`{ pc, mobile, reconnectionToken, createdAt, cleanupTimeout? }`.
`cleanupTimeout` is true exactly while a cleanup-timer handle is stored
on the record. The informational `createdAt` timestamp is not modelled:
no code path ever reads it. -/
structure Room where
  pc : Option Nat
  mobile : Option Nat
  reconnectionToken : String
  cleanupTimeout : Bool
deriving DecidableEq

/-- Per-socket closure state: `currentRoom` and `deviceType`. -/
structure ConnState where
  currentRoom : Option String
  deviceType : Option Dev
deriving DecidableEq

/-- Broker state: the `rooms` Map, the `reconnectionTokens` Map
(token to room code), both insertion-ordered association lists with
unique keys in every reachable state, plus the set of sockets whose
`readyState` is OPEN. -/
structure ServerState where
  rooms : List (String × Room)
  reconnectionTokens : List (String × String)
  openSockets : List Nat
deriving DecidableEq

/-- Side effects a handler performs, in order. -/
inductive Effect where
  | send (target : Nat) (frame : List (String × JVal))
  | closeSock (target : Nat)
deriving DecidableEq

/-- `readyState === WebSocket.OPEN`. -/
def isOpen (st : ServerState) (w : Nat) : Bool :=
  st.openSockets.contains w

/-- `rooms.get(code)` / `rooms.has(code)` (first matching key). -/
def lookupRoom (rs : List (String × Room)) (c : String) : Option Room :=
  match rs with
  | [] => none
  | (c2, r) :: rest => if c2 = c then some r else lookupRoom rest c

/-- `rooms.set(code, room)`: replace the entry at the key, or append. -/
def setRoom (rs : List (String × Room)) (c : String) (r : Room) :
    List (String × Room) :=
  match rs with
  | [] => [(c, r)]
  | (c2, r2) :: rest =>
    if c2 = c then (c, r) :: rest else (c2, r2) :: setRoom rest c r

/-- `rooms.delete(code)`: remove the entry at the key. -/
def eraseRoom (rs : List (String × Room)) (c : String) :
    List (String × Room) :=
  match rs with
  | [] => []
  | (c2, r2) :: rest =>
    if c2 = c then rest else (c2, r2) :: eraseRoom rest c

/-- `reconnectionTokens.get(token)`. -/
def lookupTok (ts : List (String × String)) (t : String) : Option String :=
  match ts with
  | [] => none
  | (t2, v) :: rest => if t2 = t then some v else lookupTok rest t

/-- `reconnectionTokens.set(token, code)`. -/
def setTok (ts : List (String × String)) (t v : String) :
    List (String × String) :=
  match ts with
  | [] => [(t, v)]
  | (t2, v2) :: rest =>
    if t2 = t then (t, v) :: rest else (t2, v2) :: setTok rest t v

/-- `reconnectionTokens.delete(token)`. -/
def eraseTok (ts : List (String × String)) (t : String) :
    List (String × String) :=
  match ts with
  | [] => []
  | (t2, v2) :: rest =>
    if t2 = t then rest else (t2, v2) :: eraseTok rest t

/-- The code alphabet of `generateRoomCode`:
`ABCDEFGHJKLMNPQRSTUVWXYZ23456789`, excluding the look-alikes 0, O, 1, I. -/
def roomChars : List Char :=
  ['A', 'B', 'C', 'D', 'E', 'F', 'G', 'H', 'J', 'K', 'L', 'M',
   'N', 'P', 'Q', 'R', 'S', 'T', 'U', 'V', 'W', 'X', 'Y', 'Z',
   '2', '3', '4', '5', '6', '7', '8', '9']

theorem roomChars_length : roomChars.length = 32 := rfl

/-- `generateRoomCode()`: six characters, each picked by
`chars.charAt(Math.floor(Math.random() * chars.length))`; the random draws
are supplied explicitly as a function from position to index. -/
def generateRoomCode (rand : Fin 6 → Fin 32) : String :=
  String.mk ((List.finRange 6).map fun i =>
    roomChars.get (Fin.cast roomChars_length.symm (rand i)))

/-- Model of `String.prototype.toUpperCase` on the ASCII strings in play. -/
def jsToUpper (s : String) : String :=
  String.mk (s.data.map Char.toUpper)

/-- The cleanup delay passed to setTimeout on a primary close:
3600000 ms, one hour. -/
def cleanupDelayMs : Nat := 3600000

/-- `{type:'error', message:'Invalid message format'}` (catch block). -/
def invalidFormatFrame : List (String × JVal) :=
  [("type", JVal.str "error"), ("message", JVal.str "Invalid message format")]

/-- `{type:'error', message:'Invalid room code'}`. -/
def invalidRoomFrame : List (String × JVal) :=
  [("type", JVal.str "error"), ("message", JVal.str "Invalid room code")]

/-- `{type:'error', message:'Not in a room'}`. -/
def notInRoomFrame : List (String × JVal) :=
  [("type", JVal.str "error"), ("message", JVal.str "Not in a room")]

/-- The `registered` response: roomCode, reconnectionToken, the
isReconnection flag and a human-readable message. -/
def registeredFrame (code tok : String) (isRec : Bool) :
    List (String × JVal) :=
  [("type", JVal.str "registered"), ("roomCode", JVal.str code),
   ("reconnectionToken", JVal.str tok),
   ("isReconnection", JVal.boolean isRec),
   ("message", JVal.str ("PC registered with code: " ++ code))]

/-- `{type:'connected', ...}` sent to a mobile that joined. -/
def connectedFrame : List (String × JVal) :=
  [("type", JVal.str "connected"),
   ("message", JVal.str "Connected to PC successfully")]

/-- `{type:'mobile_connected', ...}` sent to the room's pc. -/
def mobileConnectedFrame : List (String × JVal) :=
  [("type", JVal.str "mobile_connected"),
   ("message", JVal.str "Mobile device connected")]

/-- `{type:'pc_disconnected', ...}` sent to the room's mobile. -/
def pcDisconnectedFrame : List (String × JVal) :=
  [("type", JVal.str "pc_disconnected"), ("message", JVal.str "PC disconnected")]

/-- `{type:'mobile_disconnected', ...}` sent to the room's pc. -/
def mobileDisconnectedFrame : List (String × JVal) :=
  [("type", JVal.str "mobile_disconnected"),
   ("message", JVal.str "Mobile disconnected")]

/-- `{type:'data', payload: ...}`; JSON.stringify drops an undefined payload. -/
def dataFrame (payload : Option JVal) : List (String × JVal) :=
  ("type", JVal.str "data") ::
    (match payload with
     | some v => [("payload", v)]
     | none => [])

/-- The fresh-registration block of register_pc (reached whenever no
reclamation happened): generate a code and use the generated
reconnection token, store the room and the token-index entry, answer
`registered` with `isReconnection:false`. -/
def registerFresh (rand : Fin 6 → Fin 32) (newToken : String) (ws : Nat)
    (st : ServerState) : ConnState × ServerState × List Effect :=
  let roomCode := generateRoomCode rand
  (⟨some roomCode, some Dev.pc⟩,
   { st with
      rooms := setRoom st.rooms roomCode (Room.mk (some ws) none newToken false),
      reconnectionTokens := setTok st.reconnectionTokens newToken roomCode },
   [Effect.send ws (registeredFrame roomCode newToken false)])

/-- The `register_pc` branch of the enhanced server. When the request
carries truthy reconnectionToken and requestedRoomCode fields, the token
is resolved through the token index; if it resolves to the requested code
and that room is still live, the room is reclaimed: the pending cleanup
handle (if any) is cleared, the previous pc socket is closed when still
OPEN, the new socket is bound as pc, and the response reuses the room's
code and the supplied token with `isReconnection:true`. In every other
case the fresh-registration block runs. (A truthy non-string token or
code field falls through to fresh registration in the source as well,
because the Map lookup or the strict equality fails; the observable
outcome is identical.) -/
def handleRegisterPc (rand : Fin 6 → Fin 32) (newToken : String) (ws : Nat)
    (st : ServerState) (data : List (String × JVal)) :
    ConnState × ServerState × List Effect :=
  match lookupField data "reconnectionToken",
        lookupField data "requestedRoomCode" with
  | some (JVal.str rt), some (JVal.str rq) =>
    match lookupTok st.reconnectionTokens rt with
    | some storedRoomCode =>
      if storedRoomCode = rq then
        match lookupRoom st.rooms storedRoomCode with
        | some existingRoom =>
          let closeEffs : List Effect :=
            match existingRoom.pc with
            | some p => if isOpen st p then [Effect.closeSock p] else []
            | none => []
          let updatedRoom : Room :=
            { existingRoom with pc := some ws, cleanupTimeout := false }
          (⟨some storedRoomCode, some Dev.pc⟩,
           { st with rooms := setRoom st.rooms storedRoomCode updatedRoom },
           closeEffs ++ [Effect.send ws (registeredFrame storedRoomCode rt true)])
        | none => registerFresh rand newToken ws st
      else registerFresh rand newToken ws st
    | none => registerFresh rand newToken ws st
  | _, _ => registerFresh rand newToken ws st

/-- The `join_room` branch: uppercase the supplied code, reject unknown
codes, otherwise close any previous mobile (if OPEN), bind the new socket
as mobile and notify both sides. Identical in both server files. -/
def handleJoinRoom (ws : Nat) (conn : ConnState) (st : ServerState)
    (rawCode : String) : ConnState × ServerState × List Effect :=
  let roomCode := jsToUpper rawCode
  match lookupRoom st.rooms roomCode with
  | none => (conn, st, [Effect.send ws invalidRoomFrame])
  | some room =>
    let closeEffs : List Effect :=
      match room.mobile with
      | some old => if isOpen st old then [Effect.closeSock old] else []
      | none => []
    let notifyPc : List Effect :=
      match room.pc with
      | some p => if isOpen st p then [Effect.send p mobileConnectedFrame] else []
      | none => []
    (⟨some roomCode, some Dev.mobile⟩,
     { st with rooms := setRoom st.rooms roomCode { room with mobile := some ws } },
     closeEffs ++ [Effect.send ws connectedFrame] ++ notifyPc)

/-- The `relay` branch: reject when not in a live room; otherwise forward
the payload to the opposite role's socket when it is bound and OPEN, and
do nothing at all otherwise. Identical in both server files. -/
def handleRelay (ws : Nat) (conn : ConnState) (st : ServerState)
    (payload : Option JVal) : ConnState × ServerState × List Effect :=
  match conn.currentRoom with
  | none => (conn, st, [Effect.send ws notInRoomFrame])
  | some c =>
    match lookupRoom st.rooms c with
    | none => (conn, st, [Effect.send ws notInRoomFrame])
    | some room =>
      let effs : List Effect :=
        match conn.deviceType with
        | some Dev.pc =>
          match room.mobile with
          | some m => if isOpen st m then [Effect.send m (dataFrame payload)] else []
          | none => []
        | some Dev.mobile =>
          match room.pc with
          | some p => if isOpen st p then [Effect.send p (dataFrame payload)] else []
          | none => []
        | none => []
      (conn, st, effs)

/-- The `ws.on('message')` handler. `none` stands for a frame on which
JSON.parse (or a field access such as `.toUpperCase` on a missing
roomCode) throws, reaching the catch block; `some data` is the parsed
object. Unknown `type` values fall through every branch and do nothing. -/
def handleMessage (rand : Fin 6 → Fin 32) (newToken : String) (ws : Nat)
    (conn : ConnState) (st : ServerState)
    (msg : Option (List (String × JVal))) :
    ConnState × ServerState × List Effect :=
  match msg with
  | none => (conn, st, [Effect.send ws invalidFormatFrame])
  | some data =>
    match lookupField data "type" with
    | some (JVal.str ty) =>
      if ty = "register_pc" then handleRegisterPc rand newToken ws st data
      else if ty = "join_room" then
        match lookupField data "roomCode" with
        | some (JVal.str rc) => handleJoinRoom ws conn st rc
        | _ => (conn, st, [Effect.send ws invalidFormatFrame])
      else if ty = "relay" then handleRelay ws conn st (lookupField data "payload")
      else (conn, st, [])
    | _ => (conn, st, [])

/-- The `ws.on('close')` handler of the enhanced server: a pc close
notifies the room's mobile (if OPEN), keeps the room, and stores a
cleanup-timer handle scheduled after cleanupDelayMs (see fireCleanup); a
mobile close clears the mobile slot and notifies the room's pc (if OPEN). -/
def handleClose (conn : ConnState) (st : ServerState) :
    ServerState × List Effect :=
  match conn.currentRoom with
  | none => (st, [])
  | some c =>
    match lookupRoom st.rooms c with
    | none => (st, [])
    | some room =>
      match conn.deviceType with
      | some Dev.pc =>
        let notify : List Effect :=
          match room.mobile with
          | some m => if isOpen st m then [Effect.send m pcDisconnectedFrame] else []
          | none => []
        ({ st with rooms := setRoom st.rooms c { room with cleanupTimeout := true } },
         notify)
      | some Dev.mobile =>
        let notify : List Effect :=
          match room.pc with
          | some p => if isOpen st p then [Effect.send p mobileDisconnectedFrame] else []
          | none => []
        ({ st with rooms := setRoom st.rooms c { room with mobile := none } },
         notify)
      | none => (st, [])

/-- The setTimeout callback scheduled on a primary close, firing
cleanupDelayMs later if the handle was not cleared by a reclamation: if
the room still exists, its (truthy) reconnection token is removed from
the token index and the room is deleted. -/
def fireCleanup (c : String) (st : ServerState) : ServerState :=
  match lookupRoom st.rooms c with
  | none => st
  | some room =>
    { st with
        rooms := eraseRoom st.rooms c,
        reconnectionTokens :=
          if room.reconnectionToken = "" then st.reconnectionTokens
          else eraseTok st.reconnectionTokens room.reconnectionToken }

/-- The sockets a room record references. -/
def socketsOf (r : Room) : List Nat :=
  r.pc.toList ++ r.mobile.toList

/-- The slot the relay dispatcher forwards to: pc sends to mobile and
mobile sends to pc. -/
def peerOf (d : Dev) (room : Room) : Option Nat :=
  match d with
  | Dev.pc => room.mobile
  | Dev.mobile => room.pc

/-- Distinct rooms of the registry reference pairwise disjoint sockets. -/
def roomsDisjoint (st : ServerState) : Prop :=
  List.Pairwise (fun a b => ∀ w ∈ socketsOf a.2, w ∉ socketsOf b.2) st.rooms

instance roomsDisjointDecidable (st : ServerState) : Decidable (roomsDisjoint st) := by
  unfold roomsDisjoint
  infer_instance

/-- The room keys are pairwise distinct (true of every state reachable
through the JavaScript Map interface). -/
def uniqueKeys (rs : List (String × Room)) : Prop :=
  List.Pairwise (fun a b => a.1 ≠ b.1) rs

instance uniqueKeysDecidable (rs : List (String × Room)) : Decidable (uniqueKeys rs) := by
  unfold uniqueKeys
  infer_instance

/-- The token-index keys are pairwise distinct (also a Map). -/
def uniqueToks (ts : List (String × String)) : Prop :=
  List.Pairwise (fun a b => a.1 ≠ b.1) ts

instance uniqueToksDecidable (ts : List (String × String)) : Decidable (uniqueToks ts) := by
  unfold uniqueToks
  infer_instance

/-- A successful lookup exhibits a list entry. -/
theorem lookupRoom_mem {rs : List (String × Room)} {c : String} {r : Room}
    (h : lookupRoom rs c = some r) : (c, r) ∈ rs := by
  induction rs with
  | nil => simp [lookupRoom] at h
  | cons p rest ih =>
    obtain ⟨c2, r2⟩ := p
    by_cases hc : c2 = c
    · subst hc
      simp [lookupRoom] at h
      subst h
      exact List.mem_cons_self _ _
    · simp [lookupRoom, hc] at h
      exact List.mem_cons_of_mem _ (ih h)

/-- Entries of `setRoom rs c r` come from `rs` or are the new entry. -/
theorem mem_setRoom {rs : List (String × Room)} {c : String} {r : Room}
    {q : String × Room} (h : q ∈ setRoom rs c r) : q ∈ rs ∨ q = (c, r) := by
  induction rs with
  | nil =>
    simp [setRoom] at h
    exact Or.inr h
  | cons p rest ih =>
    obtain ⟨c2, r2⟩ := p
    by_cases hc : c2 = c
    · simp [setRoom, hc] at h
      rcases h with h | h
      · exact Or.inr h
      · exact Or.inl (List.mem_cons_of_mem _ h)
    · simp [setRoom, hc] at h
      rcases h with h | h
      · exact Or.inl (by simp [h])
      · rcases ih h with h2 | h2
        · exact Or.inl (List.mem_cons_of_mem _ h2)
        · exact Or.inr h2

/-- Looking up the key just stored yields the stored room. -/
theorem lookupRoom_setRoom_self (rs : List (String × Room)) (c : String)
    (r : Room) : lookupRoom (setRoom rs c r) c = some r := by
  induction rs with
  | nil => simp [setRoom, lookupRoom]
  | cons p rest ih =>
    obtain ⟨c2, r2⟩ := p
    by_cases hc : c2 = c
    · simp [setRoom, lookupRoom, hc]
    · simp [setRoom, lookupRoom, hc, ih]

/-- Storing under one key leaves lookups of other keys unchanged. -/
theorem lookupRoom_setRoom_ne (rs : List (String × Room)) {c c2 : String}
    (r : Room) (h : c2 ≠ c) :
    lookupRoom (setRoom rs c r) c2 = lookupRoom rs c2 := by
  have hne : c ≠ c2 := fun h2 => h h2.symm
  induction rs with
  | nil =>
    simp only [setRoom, lookupRoom]
    exact if_neg hne
  | cons p rest ih =>
    obtain ⟨c3, r3⟩ := p
    by_cases hc : c3 = c
    · subst hc
      simp only [setRoom, if_pos rfl, lookupRoom]
      rw [if_neg hne, if_neg hne]
    · simp only [setRoom, if_neg hc, lookupRoom, ih]

/-- Deleting one key leaves lookups of other keys unchanged. -/
theorem lookupRoom_eraseRoom_ne (rs : List (String × Room)) {c c2 : String}
    (h : c2 ≠ c) :
    lookupRoom (eraseRoom rs c) c2 = lookupRoom rs c2 := by
  have hne : c ≠ c2 := fun h2 => h h2.symm
  induction rs with
  | nil => simp [eraseRoom]
  | cons p rest ih =>
    obtain ⟨c3, r3⟩ := p
    by_cases hc : c3 = c
    · subst hc
      simp [eraseRoom, lookupRoom, hne]
    · simp only [eraseRoom, if_neg hc, lookupRoom, ih]

/-- If no entry carries the key, the lookup fails. -/
theorem lookupRoom_eq_none {rs : List (String × Room)} {c : String}
    (h : ∀ p ∈ rs, p.1 ≠ c) : lookupRoom rs c = none := by
  induction rs with
  | nil => rfl
  | cons p rest ih =>
    obtain ⟨c2, r2⟩ := p
    have hc : c2 ≠ c := h (c2, r2) (List.mem_cons_self _ _)
    simp [lookupRoom, hc]
    exact ih fun q hq => h q (List.mem_cons_of_mem _ hq)

/-- With unique keys, deleting a key makes its lookup fail. -/
theorem lookupRoom_eraseRoom_self {rs : List (String × Room)} {c : String}
    (hu : uniqueKeys rs) : lookupRoom (eraseRoom rs c) c = none := by
  induction rs with
  | nil => rfl
  | cons p rest ih =>
    obtain ⟨c2, r2⟩ := p
    obtain ⟨hhead, htail⟩ := List.pairwise_cons.mp hu
    by_cases hc : c2 = c
    · subst hc
      simp [eraseRoom]
      exact lookupRoom_eq_none fun q hq => (hhead q hq).symm
    · simp [eraseRoom, lookupRoom, hc]
      exact ih htail

/-- `eraseRoom` yields a sublist of the original registry. -/
theorem eraseRoom_sublist (rs : List (String × Room)) (c : String) :
    (eraseRoom rs c).Sublist rs := by
  induction rs with
  | nil => exact List.Sublist.refl _
  | cons p rest ih =>
    obtain ⟨c2, r2⟩ := p
    by_cases hc : c2 = c
    · simp only [eraseRoom, if_pos hc]
      exact List.sublist_cons_self _ _
    · simp only [eraseRoom, if_neg hc]
      exact List.Sublist.cons₂ _ ih

/-- `setRoom` preserves key uniqueness. -/
theorem uniqueKeys_setRoom {rs : List (String × Room)} {c : String} (r : Room)
    (hu : uniqueKeys rs) : uniqueKeys (setRoom rs c r) := by
  induction rs with
  | nil => simp [setRoom, uniqueKeys]
  | cons p rest ih =>
    obtain ⟨c2, r2⟩ := p
    obtain ⟨hhead, htail⟩ := List.pairwise_cons.mp hu
    by_cases hc : c2 = c
    · subst hc
      simp only [setRoom, if_pos rfl]
      exact List.pairwise_cons.mpr ⟨fun b hb => hhead b hb, htail⟩
    · simp only [setRoom, if_neg hc]
      refine List.pairwise_cons.mpr ⟨?_, ih htail⟩
      intro q hq
      rcases mem_setRoom hq with h2 | h2
      · exact hhead q h2
      · subst h2
        exact hc

/-- Looking up the token just stored yields the stored code. -/
theorem lookupTok_setTok_self (ts : List (String × String)) (t v : String) :
    lookupTok (setTok ts t v) t = some v := by
  induction ts with
  | nil => simp [setTok, lookupTok]
  | cons p rest ih =>
    obtain ⟨t2, v2⟩ := p
    by_cases ht : t2 = t
    · simp [setTok, lookupTok, ht]
    · simp [setTok, lookupTok, ht, ih]

/-- If no entry carries the token, the lookup fails. -/
theorem lookupTok_eq_none {ts : List (String × String)} {t : String}
    (h : ∀ p ∈ ts, p.1 ≠ t) : lookupTok ts t = none := by
  induction ts with
  | nil => rfl
  | cons p rest ih =>
    obtain ⟨t2, v2⟩ := p
    have ht : t2 ≠ t := h (t2, v2) (List.mem_cons_self _ _)
    simp [lookupTok, ht]
    exact ih fun q hq => h q (List.mem_cons_of_mem _ hq)

/-- With unique token keys, deleting a token makes its lookup fail. -/
theorem lookupTok_eraseTok_self {ts : List (String × String)} {t : String}
    (hu : uniqueToks ts) : lookupTok (eraseTok ts t) t = none := by
  induction ts with
  | nil => rfl
  | cons p rest ih =>
    obtain ⟨t2, v2⟩ := p
    obtain ⟨hhead, htail⟩ := List.pairwise_cons.mp hu
    by_cases ht : t2 = t
    · subst ht
      simp [eraseTok]
      exact lookupTok_eq_none fun q hq => (hhead q hq).symm
    · simp [eraseTok, lookupTok, ht]
      exact ih htail

/-- Updating the room stored at a live key preserves pairwise socket
disjointness, provided each socket of the new record either already
belonged to the old record or occurs in no room at all. -/
theorem pairwise_setRoom_update {rs : List (String × Room)} {c : String}
    {old new : Room}
    (hp : List.Pairwise (fun a b => ∀ w ∈ socketsOf a.2, w ∉ socketsOf b.2) rs)
    (hl : lookupRoom rs c = some old)
    (hw : ∀ w ∈ socketsOf new,
      w ∈ socketsOf old ∨ ∀ p ∈ rs, w ∉ socketsOf p.2) :
    List.Pairwise (fun a b => ∀ w ∈ socketsOf a.2, w ∉ socketsOf b.2)
      (setRoom rs c new) := by
  induction rs with
  | nil => simp [lookupRoom] at hl
  | cons p rest ih =>
    obtain ⟨c2, r2⟩ := p
    obtain ⟨hhead, htail⟩ := List.pairwise_cons.mp hp
    by_cases hc : c2 = c
    · simp only [lookupRoom] at hl
      rw [if_pos hc] at hl
      injection hl with hl2
      subst hl2
      simp only [setRoom, if_pos hc]
      refine List.pairwise_cons.mpr ⟨?_, htail⟩
      intro b hb w hwnew
      rcases hw w hwnew with hcase | hcase
      · exact hhead b hb w hcase
      · exact hcase b (List.mem_cons_of_mem _ hb)
    · simp only [lookupRoom] at hl
      rw [if_neg hc] at hl
      simp only [setRoom, if_neg hc]
      refine List.pairwise_cons.mpr ⟨?_, ?_⟩
      · intro q hq w hw2
        rcases mem_setRoom hq with hq2 | hq2
        · exact hhead q hq2 w hw2
        · subst hq2
          intro hwnew
          rcases hw w hwnew with hcase | hcase
          · exact hhead (c, old) (lookupRoom_mem hl) w hw2 hcase
          · exact hcase (c2, r2) (List.mem_cons_self _ _) hw2
      · exact ih htail hl fun w hwnew =>
          (hw w hwnew).imp id fun hfresh q hq => hfresh q (List.mem_cons_of_mem _ hq)

/-- Storing a record all of whose sockets are unreferenced preserves
pairwise socket disjointness (covers both insertion and overwrite). -/
theorem pairwise_setRoom_fresh {rs : List (String × Room)} {c : String}
    {new : Room}
    (hp : List.Pairwise (fun a b => ∀ w ∈ socketsOf a.2, w ∉ socketsOf b.2) rs)
    (hw : ∀ w ∈ socketsOf new, ∀ p ∈ rs, w ∉ socketsOf p.2) :
    List.Pairwise (fun a b => ∀ w ∈ socketsOf a.2, w ∉ socketsOf b.2)
      (setRoom rs c new) := by
  induction rs with
  | nil => simp [setRoom]
  | cons p rest ih =>
    obtain ⟨c2, r2⟩ := p
    obtain ⟨hhead, htail⟩ := List.pairwise_cons.mp hp
    by_cases hc : c2 = c
    · simp only [setRoom, if_pos hc]
      refine List.pairwise_cons.mpr ⟨?_, htail⟩
      intro b hb w hwnew
      exact hw w hwnew b (List.mem_cons_of_mem _ hb)
    · simp only [setRoom, if_neg hc]
      refine List.pairwise_cons.mpr ⟨?_, ?_⟩
      · intro q hq w hw2
        rcases mem_setRoom hq with hq2 | hq2
        · exact hhead q hq2 w hw2
        · subst hq2
          intro hwnew
          exact hw w hwnew (c2, r2) (List.mem_cons_self _ _) hw2
      · exact ih htail fun w hwnew q hq => hw w hwnew q (List.mem_cons_of_mem _ hq)

/-- Every character of the code alphabet is fixed by `Char.toUpper`. -/
theorem roomChars_toUpper : ∀ ch ∈ roomChars, Char.toUpper ch = ch := by
  decide

/-- A string over the code alphabet is fixed by `jsToUpper`. -/
theorem jsToUpper_of_valid {s : String}
    (h : ∀ ch ∈ s.data, ch ∈ roomChars) : jsToUpper s = s := by
  obtain ⟨l⟩ := s
  simp only [jsToUpper]
  congr 1
  induction l with
  | nil => rfl
  | cons ch rest ih =>
    have h1 : ch ∈ roomChars := h ch (List.mem_cons_self _ _)
    simp only [List.map_cons, roomChars_toUpper ch h1]
    congr 1
    exact ih fun ch2 hch2 => h ch2 (List.mem_cons_of_mem _ hch2)

/-- Every generated room code is a string over the code alphabet. -/
theorem generateRoomCode_valid (rand : Fin 6 → Fin 32) :
    ∀ ch ∈ (generateRoomCode rand).data, ch ∈ roomChars := by
  intro ch hch
  simp only [generateRoomCode, List.mem_map] at hch
  obtain ⟨i, _, hi⟩ := hch
  exact hi ▸ roomChars.get_mem _ _

/-- The relay dispatcher never changes the registry state. -/
theorem handleRelay_state (ws : Nat) (conn : ConnState) (st : ServerState)
    (p : Option JVal) : (handleRelay ws conn st p).2.1 = st := by
  rcases h : conn.currentRoom with _ | c
  · simp [handleRelay, h]
  · rcases h2 : lookupRoom st.rooms c with _ | room
    · simp [handleRelay, h, h2]
    · simp [handleRelay, h, h2]

/-- Storing a key that is not yet present grows the registry by one. -/
theorem setRoom_length {rs : List (String × Room)} {c : String} (r : Room)
    (h : lookupRoom rs c = none) : (setRoom rs c r).length = rs.length + 1 := by
  induction rs with
  | nil => rfl
  | cons p rest ih =>
    obtain ⟨c2, r2⟩ := p
    simp only [lookupRoom] at h
    by_cases hc : c2 = c
    · rw [if_pos hc] at h
      exact absurd h (by simp)
    · rw [if_neg hc] at h
      simp only [setRoom, if_neg hc, List.length_cons, ih h]

/-- Fresh registration preserves pairwise socket disjointness for an
unreferenced socket. -/
theorem registerFresh_disjoint {rand : Fin 6 → Fin 32} {newToken : String}
    {ws : Nat} {st : ServerState}
    (hdisj : roomsDisjoint st)
    (hfresh : ∀ p ∈ st.rooms, ws ∉ socketsOf p.2) :
    roomsDisjoint (registerFresh rand newToken ws st).2.1 := by
  refine pairwise_setRoom_fresh hdisj ?_
  intro w hw p hp
  have hwws : w = ws := by simpa [socketsOf] using hw
  subst hwws
  exact hfresh p hp

/-- register_pc (either path) preserves pairwise socket disjointness for
an unreferenced socket. -/
theorem handleRegisterPc_disjoint {rand : Fin 6 → Fin 32} {newToken : String}
    {ws : Nat} {st : ServerState} {data : List (String × JVal)}
    (hdisj : roomsDisjoint st)
    (hfresh : ∀ p ∈ st.rooms, ws ∉ socketsOf p.2) :
    roomsDisjoint (handleRegisterPc rand newToken ws st data).2.1 := by
  rcases h1 : lookupField data "reconnectionToken" with _ | v1
  · have hstep : handleRegisterPc rand newToken ws st data =
        registerFresh rand newToken ws st := by
      simp [handleRegisterPc, h1]
    rw [hstep]
    exact registerFresh_disjoint hdisj hfresh
  · cases v1 with
    | str rt =>
      rcases h2 : lookupField data "requestedRoomCode" with _ | v2
      · have hstep : handleRegisterPc rand newToken ws st data =
            registerFresh rand newToken ws st := by
          simp [handleRegisterPc, h1, h2]
        rw [hstep]
        exact registerFresh_disjoint hdisj hfresh
      · cases v2 with
        | str rq =>
          rcases h3 : lookupTok st.reconnectionTokens rt with _ | s
          · have hstep : handleRegisterPc rand newToken ws st data =
                registerFresh rand newToken ws st := by
              simp [handleRegisterPc, h1, h2, h3]
            rw [hstep]
            exact registerFresh_disjoint hdisj hfresh
          · by_cases hs : s = rq
            · subst hs
              rcases h4 : lookupRoom st.rooms s with _ | room
              · have hstep : handleRegisterPc rand newToken ws st data =
                    registerFresh rand newToken ws st := by
                  simp [handleRegisterPc, h1, h2, h3, h4]
                rw [hstep]
                exact registerFresh_disjoint hdisj hfresh
              · have hstep : (handleRegisterPc rand newToken ws st data).2.1.rooms =
                    setRoom st.rooms s
                      ({ room with pc := some ws, cleanupTimeout := false }) := by
                  simp [handleRegisterPc, h1, h2, h3, h4]
                show List.Pairwise _ (handleRegisterPc rand newToken ws st data).2.1.rooms
                rw [hstep]
                refine pairwise_setRoom_update hdisj h4 ?_
                intro w hw
                simp only [socketsOf] at hw
                rcases List.mem_append.mp hw with hpc | hmob
                · have hwws : w = ws := by simpa using hpc
                  subst hwws
                  exact Or.inr hfresh
                · exact Or.inl (List.mem_append_right _ hmob)
            · have hstep : handleRegisterPc rand newToken ws st data =
                  registerFresh rand newToken ws st := by
                simp [handleRegisterPc, h1, h2, h3, hs]
              rw [hstep]
              exact registerFresh_disjoint hdisj hfresh
        | boolean b =>
          have hstep : handleRegisterPc rand newToken ws st data =
              registerFresh rand newToken ws st := by
            simp [handleRegisterPc, h1, h2]
          rw [hstep]
          exact registerFresh_disjoint hdisj hfresh
        | num n =>
          have hstep : handleRegisterPc rand newToken ws st data =
              registerFresh rand newToken ws st := by
            simp [handleRegisterPc, h1, h2]
          rw [hstep]
          exact registerFresh_disjoint hdisj hfresh
    | boolean b =>
      have hstep : handleRegisterPc rand newToken ws st data =
          registerFresh rand newToken ws st := by
        simp [handleRegisterPc, h1]
      rw [hstep]
      exact registerFresh_disjoint hdisj hfresh
    | num n =>
      have hstep : handleRegisterPc rand newToken ws st data =
          registerFresh rand newToken ws st := by
        simp [handleRegisterPc, h1]
      rw [hstep]
      exact registerFresh_disjoint hdisj hfresh

/-- Claim C9: every call of generateRoomCode returns a 6-character string
each of whose characters is drawn from the fixed 32-symbol alphabet, and
that alphabet excludes the visually confusable characters 0, O, 1 and I. -/
theorem C9_room_code_shape (rand : Fin 6 → Fin 32) :
    (generateRoomCode rand).length = 6 ∧
    (∀ ch ∈ (generateRoomCode rand).data, ch ∈ roomChars) ∧
    roomChars.length = 32 ∧
    '0' ∉ roomChars ∧ 'O' ∉ roomChars ∧ '1' ∉ roomChars ∧ 'I' ∉ roomChars := by
  refine ⟨?_, generateRoomCode_valid rand, rfl, by decide, by decide, by decide, by decide⟩
  simp [generateRoomCode, String.length]

/-- Claim C8: an unparseable inbound frame is answered by a protocol-error
frame sent to the offending socket only; the sender is not closed and the
connection and registry state are untouched. -/
theorem C8_malformed_frame (rand : Fin 6 → Fin 32) (newToken : String)
    (ws : Nat) (conn : ConnState) (st : ServerState) :
    handleMessage rand newToken ws conn st none =
      (conn, st, [Effect.send ws invalidFormatFrame]) ∧
    lookupField invalidFormatFrame "type" = some (JVal.str "error") := by
  exact ⟨rfl, by simp [invalidFormatFrame, lookupField]⟩

/-- Claim C5: a join_room whose (uppercased) code has no live room fails
with the invalid-room error sent to the joining socket only, creates no
room, and leaves the connection and registry state unchanged. -/
theorem C5_join_unknown_code (rand : Fin 6 → Fin 32) (newToken : String)
    (ws : Nat) (conn : ConnState) (st : ServerState)
    (data : List (String × JVal)) (rc : String)
    (hty : lookupField data "type" = some (JVal.str "join_room"))
    (hrc : lookupField data "roomCode" = some (JVal.str rc))
    (hnone : lookupRoom st.rooms (jsToUpper rc) = none) :
    handleMessage rand newToken ws conn st (some data) =
      (conn, st, [Effect.send ws invalidRoomFrame]) := by
  simp [handleMessage, hty, hrc, handleJoinRoom, hnone]

/-- Witness for C5 at a concrete input: the empty registry rejects the
code ZZZZZZ with the invalid-room error and stays empty. -/
theorem C5_witness :
    lookupField [("type", JVal.str "join_room"), ("roomCode", JVal.str "ZZZZZZ")]
      "type" = some (JVal.str "join_room") ∧
    lookupField [("type", JVal.str "join_room"), ("roomCode", JVal.str "ZZZZZZ")]
      "roomCode" = some (JVal.str "ZZZZZZ") ∧
    lookupRoom (ServerState.mk [] [] []).rooms (jsToUpper "ZZZZZZ") = none ∧
    handleMessage (fun _ => 0) "T0" 7 ⟨none, none⟩ (ServerState.mk [] [] [])
      (some [("type", JVal.str "join_room"), ("roomCode", JVal.str "ZZZZZZ")]) =
      (⟨none, none⟩, ServerState.mk [] [] [], [Effect.send 7 invalidRoomFrame]) :=
  ⟨by decide, by decide, by decide,
   C5_join_unknown_code (fun _ => 0) "T0" 7 ⟨none, none⟩ (ServerState.mk [] [] [])
     [("type", JVal.str "join_room"), ("roomCode", JVal.str "ZZZZZZ")] "ZZZZZZ"
     (by decide) (by decide) (by decide)⟩

/-- Claim C10: joining is case-insensitive: when a live room's code is a
string over the generator alphabet and the supplied roomCode differs from
it only in letter case, join_room succeeds, binding the socket as the
room's mobile and sending it the connected frame. -/
theorem C10_join_case_insensitive (rand : Fin 6 → Fin 32) (newToken : String)
    (ws : Nat) (conn : ConnState) (st : ServerState)
    (data : List (String × JVal)) (s code : String) (room : Room)
    (hty : lookupField data "type" = some (JVal.str "join_room"))
    (hrc : lookupField data "roomCode" = some (JVal.str s))
    (hvalid : ∀ ch ∈ code.data, ch ∈ roomChars)
    (hcase : jsToUpper s = jsToUpper code)
    (hroom : lookupRoom st.rooms code = some room) :
    (handleMessage rand newToken ws conn st (some data)).1 =
      ⟨some code, some Dev.mobile⟩ ∧
    lookupRoom (handleMessage rand newToken ws conn st (some data)).2.1.rooms code =
      some { room with mobile := some ws } ∧
    Effect.send ws connectedFrame ∈
      (handleMessage rand newToken ws conn st (some data)).2.2 := by
  have hup : jsToUpper s = code := hcase.trans (jsToUpper_of_valid hvalid)
  simp [handleMessage, hty, hrc, handleJoinRoom, hup, hroom, lookupRoom_setRoom_self]

/-- Witness for C10: the lowercase string abcdef joins the live room
ABCDEF held by pc socket 1, binding socket 2 as its mobile. -/
theorem C10_witness :
    lookupField [("type", JVal.str "join_room"), ("roomCode", JVal.str "abcdef")]
      "type" = some (JVal.str "join_room") ∧
    lookupField [("type", JVal.str "join_room"), ("roomCode", JVal.str "abcdef")]
      "roomCode" = some (JVal.str "abcdef") ∧
    (∀ ch ∈ ("ABCDEF" : String).data, ch ∈ roomChars) ∧
    jsToUpper "abcdef" = jsToUpper "ABCDEF" ∧
    lookupRoom [("ABCDEF", Room.mk (some 1) none "T1" false)] "ABCDEF" =
      some (Room.mk (some 1) none "T1" false) ∧
    ((handleMessage (fun _ => 0) "T0" 2 ⟨none, none⟩
        (ServerState.mk [("ABCDEF", Room.mk (some 1) none "T1" false)]
          [("T1", "ABCDEF")] [1])
        (some [("type", JVal.str "join_room"), ("roomCode", JVal.str "abcdef")])).1 =
      ⟨some "ABCDEF", some Dev.mobile⟩) := by
  have h := C10_join_case_insensitive (fun _ => 0) "T0" 2 ⟨none, none⟩
    (ServerState.mk [("ABCDEF", Room.mk (some 1) none "T1" false)]
      [("T1", "ABCDEF")] [1])
    [("type", JVal.str "join_room"), ("roomCode", JVal.str "abcdef")]
    "abcdef" "ABCDEF" (Room.mk (some 1) none "T1" false)
    (by decide) (by decide) (by decide) (by decide) (by decide)
  exact ⟨by decide, by decide, by decide, by decide, by decide, h.1⟩

/-- Claim C4: a relay envelope from a socket bound to a live room is
forwarded unmodified to the opposite role's socket when that socket is
bound and open, and is silently dropped (no effect at all, no error to
the sender, no state change) when the peer slot is empty or not open. -/
theorem C4_relay_forward (rand : Fin 6 → Fin 32) (newToken : String) (ws : Nat)
    (conn : ConnState) (st : ServerState) (data : List (String × JVal))
    (c : String) (room : Room) (d : Dev) (payload : JVal)
    (hty : lookupField data "type" = some (JVal.str "relay"))
    (hpay : lookupField data "payload" = some payload)
    (hc : conn.currentRoom = some c)
    (hd : conn.deviceType = some d)
    (hr : lookupRoom st.rooms c = some room) :
    (handleMessage rand newToken ws conn st (some data)).1 = conn ∧
    (handleMessage rand newToken ws conn st (some data)).2.1 = st ∧
    (∀ p, peerOf d room = some p → isOpen st p = true →
      (handleMessage rand newToken ws conn st (some data)).2.2 =
        [Effect.send p (dataFrame (some payload))]) ∧
    (peerOf d room = none →
      (handleMessage rand newToken ws conn st (some data)).2.2 = []) ∧
    (∀ p, peerOf d room = some p → isOpen st p = false →
      (handleMessage rand newToken ws conn st (some data)).2.2 = []) := by
  have hmsg : handleMessage rand newToken ws conn st (some data) =
      handleRelay ws conn st (some payload) := by
    simp [handleMessage, hty, hpay]
  rw [hmsg]
  refine ⟨?_, ?_, ?_, ?_, ?_⟩
  · simp [handleRelay, hc, hr]
  · simp [handleRelay, hc, hr]
  · intro p hp hopen
    cases d with
    | pc =>
      simp only [peerOf] at hp
      simp [handleRelay, hc, hr, hd, hp, hopen]
    | mobile =>
      simp only [peerOf] at hp
      simp [handleRelay, hc, hr, hd, hp, hopen]
  · intro hp
    cases d with
    | pc =>
      simp only [peerOf] at hp
      simp [handleRelay, hc, hr, hd, hp]
    | mobile =>
      simp only [peerOf] at hp
      simp [handleRelay, hc, hr, hd, hp]
  · intro p hp hopen
    cases d with
    | pc =>
      simp only [peerOf] at hp
      simp [handleRelay, hc, hr, hd, hp, hopen]
    | mobile =>
      simp only [peerOf] at hp
      simp [handleRelay, hc, hr, hd, hp, hopen]

/-- Witness for C4: in room ABCDEF with pc socket 1 and open mobile
socket 2, a relay from the pc delivers the payload X to the mobile. -/
theorem C4_witness :
    lookupField [("type", JVal.str "relay"), ("payload", JVal.str "X")] "type" =
      some (JVal.str "relay") ∧
    lookupField [("type", JVal.str "relay"), ("payload", JVal.str "X")] "payload" =
      some (JVal.str "X") ∧
    (ConnState.mk (some "ABCDEF") (some Dev.pc)).currentRoom = some "ABCDEF" ∧
    (ConnState.mk (some "ABCDEF") (some Dev.pc)).deviceType = some Dev.pc ∧
    lookupRoom [("ABCDEF", Room.mk (some 1) (some 2) "T1" false)] "ABCDEF" =
      some (Room.mk (some 1) (some 2) "T1" false) ∧
    ((handleMessage (fun _ => 0) "T0" 1 (ConnState.mk (some "ABCDEF") (some Dev.pc))
        (ServerState.mk [("ABCDEF", Room.mk (some 1) (some 2) "T1" false)]
          [("T1", "ABCDEF")] [1, 2])
        (some [("type", JVal.str "relay"), ("payload", JVal.str "X")])).2.2 =
      [Effect.send 2 (dataFrame (some (JVal.str "X")))]) := by
  have h := C4_relay_forward (fun _ => 0) "T0" 1
    (ConnState.mk (some "ABCDEF") (some Dev.pc))
    (ServerState.mk [("ABCDEF", Room.mk (some 1) (some 2) "T1" false)]
      [("T1", "ABCDEF")] [1, 2])
    [("type", JVal.str "relay"), ("payload", JVal.str "X")]
    "ABCDEF" (Room.mk (some 1) (some 2) "T1" false) Dev.pc (JVal.str "X")
    (by decide) (by decide) (by decide) (by decide) (by decide)
  exact ⟨by decide, by decide, by decide, by decide, by decide,
    h.2.2.1 2 (by decide) (by decide)⟩

/-- Claim C3: a join_room on a live room that already has a secondary
replaces it: the new socket becomes the room's unique mobile, the old
secondary is forcibly closed when still open, and the joining connection
is bound as mobile of that room (last join wins; the mobile slot holds at
most one socket by construction). -/
theorem C3_last_join_wins (rand : Fin 6 → Fin 32) (newToken : String) (ws : Nat)
    (conn : ConnState) (st : ServerState) (data : List (String × JVal))
    (rc : String) (room : Room) (old : Nat)
    (hty : lookupField data "type" = some (JVal.str "join_room"))
    (hrc : lookupField data "roomCode" = some (JVal.str rc))
    (hr : lookupRoom st.rooms (jsToUpper rc) = some room)
    (hold : room.mobile = some old) :
    lookupRoom (handleMessage rand newToken ws conn st (some data)).2.1.rooms
      (jsToUpper rc) = some { room with mobile := some ws } ∧
    (isOpen st old = true →
      Effect.closeSock old ∈
        (handleMessage rand newToken ws conn st (some data)).2.2) ∧
    (handleMessage rand newToken ws conn st (some data)).1 =
      ⟨some (jsToUpper rc), some Dev.mobile⟩ := by
  have hmsg : handleMessage rand newToken ws conn st (some data) =
      handleJoinRoom ws conn st rc := by
    simp [handleMessage, hty, hrc]
  rw [hmsg]
  refine ⟨?_, ?_, ?_⟩
  · simp [handleJoinRoom, hr, lookupRoom_setRoom_self]
  · intro hopen
    simp [handleJoinRoom, hr, hold, hopen]
  · simp [handleJoinRoom, hr]

/-- Witness for C3: socket 3 joins room ABCDEF whose mobile slot holds
the open socket 2; socket 2 is closed and replaced by socket 3. -/
theorem C3_witness :
    lookupField [("type", JVal.str "join_room"), ("roomCode", JVal.str "ABCDEF")]
      "type" = some (JVal.str "join_room") ∧
    lookupField [("type", JVal.str "join_room"), ("roomCode", JVal.str "ABCDEF")]
      "roomCode" = some (JVal.str "ABCDEF") ∧
    lookupRoom [("ABCDEF", Room.mk (some 1) (some 2) "T1" false)]
      (jsToUpper "ABCDEF") = some (Room.mk (some 1) (some 2) "T1" false) ∧
    (Room.mk (some 1) (some 2) "T1" false).mobile = some 2 ∧
    lookupRoom ((handleMessage (fun _ => 0) "T0" 3 ⟨none, none⟩
        (ServerState.mk [("ABCDEF", Room.mk (some 1) (some 2) "T1" false)]
          [("T1", "ABCDEF")] [1, 2])
        (some [("type", JVal.str "join_room"),
               ("roomCode", JVal.str "ABCDEF")])).2.1.rooms)
      (jsToUpper "ABCDEF") = some (Room.mk (some 1) (some 3) "T1" false) ∧
    Effect.closeSock 2 ∈ (handleMessage (fun _ => 0) "T0" 3 ⟨none, none⟩
        (ServerState.mk [("ABCDEF", Room.mk (some 1) (some 2) "T1" false)]
          [("T1", "ABCDEF")] [1, 2])
        (some [("type", JVal.str "join_room"),
               ("roomCode", JVal.str "ABCDEF")])).2.2 := by
  have h := C3_last_join_wins (fun _ => 0) "T0" 3 ⟨none, none⟩
    (ServerState.mk [("ABCDEF", Room.mk (some 1) (some 2) "T1" false)]
      [("T1", "ABCDEF")] [1, 2])
    [("type", JVal.str "join_room"), ("roomCode", JVal.str "ABCDEF")]
    "ABCDEF" (Room.mk (some 1) (some 2) "T1" false) 2
    (by decide) (by decide) (by decide) (by decide)
  exact ⟨by decide, by decide, by decide, by decide, h.1, h.2.1 (by decide)⟩

/-- Claim C1: a register_pc whose reconnection token resolves through the
token index to a live room with the requested code reclaims that room:
the pending cleanup handle is cleared, the previous primary socket (when
still open) is forcibly closed, the new socket is bound as primary, the
room's code and stored reconnection token are untouched (as is the token
index and every other room), and the registered response reuses the code
and token and reports isReconnection = true. -/
theorem C1_reconnection_reclaims (rand : Fin 6 → Fin 32) (newToken : String)
    (ws : Nat) (conn : ConnState) (st : ServerState)
    (data : List (String × JVal)) (rt rq : String) (room : Room)
    (hty : lookupField data "type" = some (JVal.str "register_pc"))
    (hrt : lookupField data "reconnectionToken" = some (JVal.str rt))
    (hrq : lookupField data "requestedRoomCode" = some (JVal.str rq))
    (hres : lookupTok st.reconnectionTokens rt = some rq)
    (hlive : lookupRoom st.rooms rq = some room) :
    (handleMessage rand newToken ws conn st (some data)).1 =
      ⟨some rq, some Dev.pc⟩ ∧
    lookupRoom (handleMessage rand newToken ws conn st (some data)).2.1.rooms rq =
      some { room with pc := some ws, cleanupTimeout := false } ∧
    (∀ c2, c2 ≠ rq →
      lookupRoom (handleMessage rand newToken ws conn st (some data)).2.1.rooms c2 =
        lookupRoom st.rooms c2) ∧
    (handleMessage rand newToken ws conn st (some data)).2.1.reconnectionTokens =
      st.reconnectionTokens ∧
    (handleMessage rand newToken ws conn st (some data)).2.2 =
      (match room.pc with
       | some p => if isOpen st p then [Effect.closeSock p] else []
       | none => []) ++ [Effect.send ws (registeredFrame rq rt true)] ∧
    lookupField (registeredFrame rq rt true) "isReconnection" =
      some (JVal.boolean true) := by
  have hmsg : handleMessage rand newToken ws conn st (some data) =
      handleRegisterPc rand newToken ws st data := by
    simp [handleMessage, hty]
  have hreg : handleRegisterPc rand newToken ws st data =
      (⟨some rq, some Dev.pc⟩,
       { st with rooms :=
          setRoom st.rooms rq ({ room with pc := some ws, cleanupTimeout := false }) },
       (match room.pc with
        | some p => if isOpen st p then [Effect.closeSock p] else []
        | none => []) ++ [Effect.send ws (registeredFrame rq rt true)]) := by
    simp [handleRegisterPc, hrt, hrq, hres, hlive]
  rw [hmsg, hreg]
  refine ⟨rfl, lookupRoom_setRoom_self _ _ _, ?_, rfl, rfl, ?_⟩
  · intro c2 h2
    exact lookupRoom_setRoom_ne _ _ h2
  · simp [registeredFrame, lookupField]

/-- Witness for C1: socket 2 reclaims room AAAAAA (orphaned, cleanup
pending, token T1) from the closed-out socket 1, receiving
registered with code AAAAAA, token T1 and isReconnection true. -/
theorem C1_witness :
    lookupField [("type", JVal.str "register_pc"),
                 ("reconnectionToken", JVal.str "T1"),
                 ("requestedRoomCode", JVal.str "AAAAAA")] "type" =
      some (JVal.str "register_pc") ∧
    lookupField [("type", JVal.str "register_pc"),
                 ("reconnectionToken", JVal.str "T1"),
                 ("requestedRoomCode", JVal.str "AAAAAA")] "reconnectionToken" =
      some (JVal.str "T1") ∧
    lookupField [("type", JVal.str "register_pc"),
                 ("reconnectionToken", JVal.str "T1"),
                 ("requestedRoomCode", JVal.str "AAAAAA")] "requestedRoomCode" =
      some (JVal.str "AAAAAA") ∧
    lookupTok [("T1", "AAAAAA")] "T1" = some "AAAAAA" ∧
    lookupRoom [("AAAAAA", Room.mk (some 1) none "T1" true)] "AAAAAA" =
      some (Room.mk (some 1) none "T1" true) ∧
    (handleMessage (fun _ => 1) "T9" 2 ⟨none, none⟩
        (ServerState.mk [("AAAAAA", Room.mk (some 1) none "T1" true)]
          [("T1", "AAAAAA")] [1, 2])
        (some [("type", JVal.str "register_pc"),
               ("reconnectionToken", JVal.str "T1"),
               ("requestedRoomCode", JVal.str "AAAAAA")])).1 =
      ⟨some "AAAAAA", some Dev.pc⟩ ∧
    lookupRoom (handleMessage (fun _ => 1) "T9" 2 ⟨none, none⟩
        (ServerState.mk [("AAAAAA", Room.mk (some 1) none "T1" true)]
          [("T1", "AAAAAA")] [1, 2])
        (some [("type", JVal.str "register_pc"),
               ("reconnectionToken", JVal.str "T1"),
               ("requestedRoomCode", JVal.str "AAAAAA")])).2.1.rooms "AAAAAA" =
      some (Room.mk (some 2) none "T1" false) ∧
    (handleMessage (fun _ => 1) "T9" 2 ⟨none, none⟩
        (ServerState.mk [("AAAAAA", Room.mk (some 1) none "T1" true)]
          [("T1", "AAAAAA")] [1, 2])
        (some [("type", JVal.str "register_pc"),
               ("reconnectionToken", JVal.str "T1"),
               ("requestedRoomCode", JVal.str "AAAAAA")])).2.2 =
      [Effect.closeSock 1, Effect.send 2 (registeredFrame "AAAAAA" "T1" true)] ∧
    lookupField (registeredFrame "AAAAAA" "T1" true) "isReconnection" =
      some (JVal.boolean true) := by
  have h := C1_reconnection_reclaims (fun _ => 1) "T9" 2 ⟨none, none⟩
    (ServerState.mk [("AAAAAA", Room.mk (some 1) none "T1" true)]
      [("T1", "AAAAAA")] [1, 2])
    [("type", JVal.str "register_pc"),
     ("reconnectionToken", JVal.str "T1"),
     ("requestedRoomCode", JVal.str "AAAAAA")]
    "T1" "AAAAAA" (Room.mk (some 1) none "T1" true)
    (by decide) (by decide) (by decide) (by decide) (by decide)
  exact ⟨by decide, by decide, by decide, by decide, by decide,
    h.1, h.2.1, h.2.2.2.2.1, h.2.2.2.2.2⟩

/-- Claim C2: when a socket bound as a room's primary closes, the
secondary (when bound and still open) is notified with pc_disconnected
and the room is not deleted: it stays in the registry with a cleanup
handle scheduled after cleanupDelayMs (3600000 ms, i.e. 3600 seconds),
its token-index entry untouched so the room stays resolvable via its
reconnection token; only when the scheduled cleanup fires unreclaimed are
the room and its token-index entry deleted. -/
theorem C2_primary_close_grace (conn : ConnState) (st : ServerState)
    (c : String) (room : Room)
    (hu : uniqueKeys st.rooms)
    (hut : uniqueToks st.reconnectionTokens)
    (hc : conn.currentRoom = some c)
    (hd : conn.deviceType = some Dev.pc)
    (hr : lookupRoom st.rooms c = some room) :
    lookupRoom (handleClose conn st).1.rooms c =
      some { room with cleanupTimeout := true } ∧
    (∀ c2, c2 ≠ c →
      lookupRoom (handleClose conn st).1.rooms c2 = lookupRoom st.rooms c2) ∧
    (handleClose conn st).1.reconnectionTokens = st.reconnectionTokens ∧
    cleanupDelayMs = 3600000 ∧
    (∀ m, room.mobile = some m → isOpen st m = true →
      (handleClose conn st).2 = [Effect.send m pcDisconnectedFrame]) ∧
    (∀ m, room.mobile = some m → isOpen st m = false →
      (handleClose conn st).2 = []) ∧
    (room.mobile = none → (handleClose conn st).2 = []) ∧
    lookupRoom (fireCleanup c (handleClose conn st).1).rooms c = none ∧
    (room.reconnectionToken ≠ "" →
      lookupTok (fireCleanup c (handleClose conn st).1).reconnectionTokens
        room.reconnectionToken = none) := by
  have hcl : handleClose conn st =
      ({ st with rooms := setRoom st.rooms c ({ room with cleanupTimeout := true }) },
       match room.mobile with
       | some m => if isOpen st m then [Effect.send m pcDisconnectedFrame] else []
       | none => []) := by
    simp [handleClose, hc, hr, hd]
  rw [hcl]
  have hlook : lookupRoom (setRoom st.rooms c ({ room with cleanupTimeout := true })) c =
      some ({ room with cleanupTimeout := true }) := lookupRoom_setRoom_self _ _ _
  refine ⟨hlook, ?_, rfl, rfl, ?_, ?_, ?_, ?_, ?_⟩
  · intro c2 h2
    exact lookupRoom_setRoom_ne _ _ h2
  · intro m hm hopen
    simp [hm, hopen]
  · intro m hm hopen
    simp [hm, hopen]
  · intro hm
    simp [hm]
  · simp only [fireCleanup, hlook]
    exact lookupRoom_eraseRoom_self (uniqueKeys_setRoom _ hu)
  · intro htok
    simp only [fireCleanup, hlook]
    rw [if_neg htok]
    exact lookupTok_eraseTok_self hut

/-- Witness for C2: room AAAAAA loses its primary socket 1; the open
mobile socket 2 is notified, the room survives with a pending cleanup and
its token entry intact, and firing the cleanup deletes room and token. -/
theorem C2_witness :
    uniqueKeys [("AAAAAA", Room.mk (some 1) (some 2) "T1" false)] ∧
    uniqueToks [("T1", "AAAAAA")] ∧
    (ConnState.mk (some "AAAAAA") (some Dev.pc)).currentRoom = some "AAAAAA" ∧
    (ConnState.mk (some "AAAAAA") (some Dev.pc)).deviceType = some Dev.pc ∧
    lookupRoom [("AAAAAA", Room.mk (some 1) (some 2) "T1" false)] "AAAAAA" =
      some (Room.mk (some 1) (some 2) "T1" false) ∧
    lookupRoom (handleClose (ConnState.mk (some "AAAAAA") (some Dev.pc))
        (ServerState.mk [("AAAAAA", Room.mk (some 1) (some 2) "T1" false)]
          [("T1", "AAAAAA")] [2])).1.rooms "AAAAAA" =
      some (Room.mk (some 1) (some 2) "T1" true) ∧
    (handleClose (ConnState.mk (some "AAAAAA") (some Dev.pc))
        (ServerState.mk [("AAAAAA", Room.mk (some 1) (some 2) "T1" false)]
          [("T1", "AAAAAA")] [2])).1.reconnectionTokens = [("T1", "AAAAAA")] ∧
    (handleClose (ConnState.mk (some "AAAAAA") (some Dev.pc))
        (ServerState.mk [("AAAAAA", Room.mk (some 1) (some 2) "T1" false)]
          [("T1", "AAAAAA")] [2])).2 = [Effect.send 2 pcDisconnectedFrame] ∧
    lookupRoom (fireCleanup "AAAAAA"
        (handleClose (ConnState.mk (some "AAAAAA") (some Dev.pc))
          (ServerState.mk [("AAAAAA", Room.mk (some 1) (some 2) "T1" false)]
            [("T1", "AAAAAA")] [2])).1).rooms "AAAAAA" = none ∧
    lookupTok (fireCleanup "AAAAAA"
        (handleClose (ConnState.mk (some "AAAAAA") (some Dev.pc))
          (ServerState.mk [("AAAAAA", Room.mk (some 1) (some 2) "T1" false)]
            [("T1", "AAAAAA")] [2])).1).reconnectionTokens "T1" = none := by
  have h := C2_primary_close_grace (ConnState.mk (some "AAAAAA") (some Dev.pc))
    (ServerState.mk [("AAAAAA", Room.mk (some 1) (some 2) "T1" false)]
      [("T1", "AAAAAA")] [2])
    "AAAAAA" (Room.mk (some 1) (some 2) "T1" false)
    (by decide) (by decide) (by decide) (by decide) (by decide)
  exact ⟨by decide, by decide, by decide, by decide, by decide,
    h.1, h.2.2.1, h.2.2.2.2.1 2 (by decide) (by decide),
    h.2.2.2.2.2.2.2.1, h.2.2.2.2.2.2.2.2 (by decide)⟩

/-- Claim C7 (amended): a register_pc that carries no reconnection token
always creates a fresh room under the newly generated code with the
socket as primary and the generated token indexed; the registry performs
no collision check and no retry, so when the generated code is not a live
room's code the registration is purely additive (every live room is
unchanged and the count grows by one), but a generated code equal to a
live room's code silently overwrites that room. -/
theorem C7_register_no_collision_check (rand : Fin 6 → Fin 32)
    (newToken : String) (ws : Nat) (conn : ConnState) (st : ServerState)
    (data : List (String × JVal))
    (hty : lookupField data "type" = some (JVal.str "register_pc"))
    (hnotok : lookupField data "reconnectionToken" = none)
    (hfresh : lookupRoom st.rooms (generateRoomCode rand) = none) :
    lookupRoom (handleMessage rand newToken ws conn st (some data)).2.1.rooms
      (generateRoomCode rand) = some (Room.mk (some ws) none newToken false) ∧
    (∀ c2, c2 ≠ generateRoomCode rand →
      lookupRoom (handleMessage rand newToken ws conn st (some data)).2.1.rooms c2 =
        lookupRoom st.rooms c2) ∧
    (handleMessage rand newToken ws conn st (some data)).2.1.rooms.length =
      st.rooms.length + 1 ∧
    lookupTok
      (handleMessage rand newToken ws conn st (some data)).2.1.reconnectionTokens
      newToken = some (generateRoomCode rand) ∧
    (handleMessage rand newToken ws conn st (some data)).1 =
      ⟨some (generateRoomCode rand), some Dev.pc⟩ := by
  have hmsg : handleMessage rand newToken ws conn st (some data) =
      registerFresh rand newToken ws st := by
    simp [handleMessage, hty, handleRegisterPc, hnotok]
  rw [hmsg]
  simp only [registerFresh]
  exact ⟨lookupRoom_setRoom_self _ _ _,
    fun c2 h2 => lookupRoom_setRoom_ne _ _ h2,
    setRoom_length _ hfresh,
    lookupTok_setTok_self _ _ _, trivial⟩

/-- Counterexample to claim C7 as stated: a token-less registration by
socket 3 while the generator returns AAAAAA and room AAAAAA (primary
socket 1, secondary socket 2) is live performs no collision retry and
overwrites the live room, evicting both of its occupants. -/
theorem C7_counterexample :
    lookupField [("type", JVal.str "register_pc")] "reconnectionToken" = none ∧
    generateRoomCode (fun _ => 0) = "AAAAAA" ∧
    lookupRoom (handleMessage (fun _ => 0) "TNEW" 3 ⟨none, none⟩
        (ServerState.mk [("AAAAAA", Room.mk (some 1) (some 2) "TOLD" false)]
          [("TOLD", "AAAAAA")] [1, 2, 3])
        (some [("type", JVal.str "register_pc")])).2.1.rooms "AAAAAA" =
      some (Room.mk (some 3) none "TNEW" false) ∧
    (handleMessage (fun _ => 0) "TNEW" 3 ⟨none, none⟩
        (ServerState.mk [("AAAAAA", Room.mk (some 1) (some 2) "TOLD" false)]
          [("TOLD", "AAAAAA")] [1, 2, 3])
        (some [("type", JVal.str "register_pc")])).2.1.rooms.length = 1 := by
  decide

/-- Witness for the amended C7: a token-less registration by socket 2
while room AAAAAA is live and the generator yields the non-colliding
code BBBBBB. -/
theorem C7_witness :
    lookupField [("type", JVal.str "register_pc")] "type" =
      some (JVal.str "register_pc") ∧
    lookupField [("type", JVal.str "register_pc")] "reconnectionToken" = none ∧
    lookupRoom [("AAAAAA", Room.mk (some 1) none "T1" false)]
      (generateRoomCode fun _ => 1) = none ∧
    lookupRoom (handleMessage (fun _ => 1) "T2" 2 ⟨none, none⟩
        (ServerState.mk [("AAAAAA", Room.mk (some 1) none "T1" false)]
          [("T1", "AAAAAA")] [1, 2])
        (some [("type", JVal.str "register_pc")])).2.1.rooms
      (generateRoomCode fun _ => 1) = some (Room.mk (some 2) none "T2" false) ∧
    (handleMessage (fun _ => 1) "T2" 2 ⟨none, none⟩
        (ServerState.mk [("AAAAAA", Room.mk (some 1) none "T1" false)]
          [("T1", "AAAAAA")] [1, 2])
        (some [("type", JVal.str "register_pc")])).2.1.rooms.length = 1 + 1 := by
  have h := C7_register_no_collision_check (fun _ => 1) "T2" 2 ⟨none, none⟩
    (ServerState.mk [("AAAAAA", Room.mk (some 1) none "T1" false)]
      [("T1", "AAAAAA")] [1, 2])
    [("type", JVal.str "register_pc")] (by decide) (by decide) (by decide)
  exact ⟨by decide, by decide, by decide, h.1, h.2.2.1⟩

/-- Claim C6 (amended): pairwise socket-disjointness of the registry is
preserved by message handling for a socket not currently referenced by
any room (covering fresh registration, token reclamation and joins), by
every close, and by a firing cleanup; it is not an unconditional
invariant, because a socket that registers or joins again while already
bound stays referenced by its old room (see the counterexample). -/
theorem C6_socket_exclusivity_preserved (rand : Fin 6 → Fin 32)
    (newToken : String) (ws : Nat) (conn : ConnState) (st : ServerState)
    (msg : Option (List (String × JVal)))
    (hdisj : roomsDisjoint st)
    (hfresh : ∀ p ∈ st.rooms, ws ∉ socketsOf p.2) :
    roomsDisjoint (handleMessage rand newToken ws conn st msg).2.1 ∧
    roomsDisjoint (handleClose conn st).1 ∧
    (∀ cc, roomsDisjoint (fireCleanup cc st)) := by
  refine ⟨?_, ?_, ?_⟩
  · cases msg with
    | none => exact hdisj
    | some data =>
      rcases h : lookupField data "type" with _ | v
      · simpa [handleMessage, h] using hdisj
      · cases v with
        | str ty =>
          by_cases h1 : ty = "register_pc"
          · subst h1
            have hmsg : handleMessage rand newToken ws conn st (some data) =
                handleRegisterPc rand newToken ws st data := by
              simp [handleMessage, h]
            rw [hmsg]
            exact handleRegisterPc_disjoint hdisj hfresh
          · by_cases h2 : ty = "join_room"
            · subst h2
              have hmsg : handleMessage rand newToken ws conn st (some data) =
                  (match lookupField data "roomCode" with
                   | some (JVal.str rc) => handleJoinRoom ws conn st rc
                   | _ => (conn, st, [Effect.send ws invalidFormatFrame])) := by
                simp [handleMessage, h]
              rw [hmsg]
              rcases h3 : lookupField data "roomCode" with _ | w2
              · exact hdisj
              · cases w2 with
                | str rc =>
                  rcases h4 : lookupRoom st.rooms (jsToUpper rc) with _ | room
                  · simpa [handleJoinRoom, h4] using hdisj
                  · have hset : (handleJoinRoom ws conn st rc).2.1.rooms =
                        setRoom st.rooms (jsToUpper rc)
                          ({ room with mobile := some ws }) := by
                      simp [handleJoinRoom, h4]
                    show List.Pairwise _ (handleJoinRoom ws conn st rc).2.1.rooms
                    rw [hset]
                    refine pairwise_setRoom_update hdisj h4 ?_
                    intro w hw
                    simp only [socketsOf] at hw
                    rcases List.mem_append.mp hw with hpc | hmob
                    · exact Or.inl (List.mem_append_left _ hpc)
                    · have hwws : w = ws := by simpa using hmob
                      subst hwws
                      exact Or.inr hfresh
                | boolean b => exact hdisj
                | num n => exact hdisj
            · by_cases h3 : ty = "relay"
              · subst h3
                have hmsg : handleMessage rand newToken ws conn st (some data) =
                    handleRelay ws conn st (lookupField data "payload") := by
                  simp [handleMessage, h]
                rw [hmsg, handleRelay_state]
                exact hdisj
              · have hmsg : handleMessage rand newToken ws conn st (some data) =
                    (conn, st, []) := by
                  simp [handleMessage, h, h1, h2, h3]
                rw [hmsg]
                exact hdisj
        | boolean b => simpa [handleMessage, h] using hdisj
        | num n => simpa [handleMessage, h] using hdisj
  · rcases h : conn.currentRoom with _ | c
    · simpa [handleClose, h] using hdisj
    · rcases h2 : lookupRoom st.rooms c with _ | room
      · simpa [handleClose, h, h2] using hdisj
      · rcases h3 : conn.deviceType with _ | d
        · simpa [handleClose, h, h2, h3] using hdisj
        · cases d with
          | pc =>
            have hcl : (handleClose conn st).1.rooms =
                setRoom st.rooms c ({ room with cleanupTimeout := true }) := by
              simp [handleClose, h, h2, h3]
            show List.Pairwise _ (handleClose conn st).1.rooms
            rw [hcl]
            refine pairwise_setRoom_update hdisj h2 ?_
            intro w hw
            exact Or.inl hw
          | mobile =>
            have hcl : (handleClose conn st).1.rooms =
                setRoom st.rooms c ({ room with mobile := none }) := by
              simp [handleClose, h, h2, h3]
            show List.Pairwise _ (handleClose conn st).1.rooms
            rw [hcl]
            refine pairwise_setRoom_update hdisj h2 ?_
            intro w hw
            left
            simp only [socketsOf] at hw
            rcases List.mem_append.mp hw with hpc | hmob
            · exact List.mem_append_left _ hpc
            · simp at hmob
  · intro cc
    rcases h : lookupRoom st.rooms cc with _ | room
    · simpa [fireCleanup, h] using hdisj
    · have hcl : (fireCleanup cc st).rooms = eraseRoom st.rooms cc := by
        simp [fireCleanup, h]
      show List.Pairwise _ (fireCleanup cc st).rooms
      rw [hcl]
      exact List.Pairwise.sublist (eraseRoom_sublist _ _) hdisj

/-- Counterexample to claim C6 as stated: socket 1 registers twice in a
row without a token (codes AAAAAA then BBBBBB); nothing unbinds the old
room, so both live rooms reference socket 1 as primary and the rooms'
socket sets are not disjoint. -/
theorem C6_counterexample :
    (handleMessage (fun _ => 1) "T2" 1
        (handleMessage (fun _ => 0) "T1" 1 ⟨none, none⟩ (ServerState.mk [] [] [1])
          (some [("type", JVal.str "register_pc")])).1
        (handleMessage (fun _ => 0) "T1" 1 ⟨none, none⟩ (ServerState.mk [] [] [1])
          (some [("type", JVal.str "register_pc")])).2.1
        (some [("type", JVal.str "register_pc")])).2.1.rooms =
      [("AAAAAA", Room.mk (some 1) none "T1" false),
       ("BBBBBB", Room.mk (some 1) none "T2" false)] ∧
    ¬ roomsDisjoint (handleMessage (fun _ => 1) "T2" 1
        (handleMessage (fun _ => 0) "T1" 1 ⟨none, none⟩ (ServerState.mk [] [] [1])
          (some [("type", JVal.str "register_pc")])).1
        (handleMessage (fun _ => 0) "T1" 1 ⟨none, none⟩ (ServerState.mk [] [] [1])
          (some [("type", JVal.str "register_pc")])).2.1
        (some [("type", JVal.str "register_pc")])).2.1 := by
  decide

/-- Witness for the amended C6: the unreferenced socket 2 registers while
room AAAAAA (socket 1) is live; disjointness is preserved by the message
step, by a close step, and by a firing cleanup. -/
theorem C6_witness :
    roomsDisjoint (ServerState.mk [("AAAAAA", Room.mk (some 1) none "T1" false)]
      [("T1", "AAAAAA")] [1]) ∧
    (∀ p ∈ [("AAAAAA", Room.mk (some 1) none "T1" false)], 2 ∉ socketsOf p.2) ∧
    roomsDisjoint (handleMessage (fun _ => 1) "T2" 2 ⟨none, none⟩
        (ServerState.mk [("AAAAAA", Room.mk (some 1) none "T1" false)]
          [("T1", "AAAAAA")] [1])
        (some [("type", JVal.str "register_pc")])).2.1 ∧
    roomsDisjoint (handleClose ⟨none, none⟩
        (ServerState.mk [("AAAAAA", Room.mk (some 1) none "T1" false)]
          [("T1", "AAAAAA")] [1])).1 ∧
    roomsDisjoint (fireCleanup "AAAAAA"
        (ServerState.mk [("AAAAAA", Room.mk (some 1) none "T1" false)]
          [("T1", "AAAAAA")] [1])) := by
  have h := C6_socket_exclusivity_preserved (fun _ => 1) "T2" 2 ⟨none, none⟩
    (ServerState.mk [("AAAAAA", Room.mk (some 1) none "T1" false)]
      [("T1", "AAAAAA")] [1])
    (some [("type", JVal.str "register_pc")]) (by decide) (by decide)
  exact ⟨by decide, by decide, h.1, h.2.1, h.2.2 "AAAAAA"⟩

end FlightRelay
